import Mathlib

/-!
Shallow embedding of the slider widget (src/widget/src/slider.rs) and the
background value type (src/core/src/background.rs) of the iced-gui excerpt.

The floating-point working domain (f64 for value arithmetic, f32 for the
draw geometry) is idealized as the rational numbers; the generic numeric
domain T is also carried as a rational, with the fallible back-conversion
T::from_f64 kept as an explicit Option-valued function field so that
conversion failure is represented faithfully.
-/

namespace IcedGui

/-- Rust f64::round rounds half away from zero; on the idealized rational
domain this is floor of q + 1/2 for nonnegative q, mirrored for negative q. -/
def rustRound (q : ℚ) : ℤ :=
  if 0 ≤ q then ⌊q + 1/2⌋ else -⌊(-q) + 1/2⌋

/-- The keyboard modifier set, reduced to the two predicates the slider
reads: shift() and command(). -/
structure Modifiers where
  shift : Bool
  command : Bool
deriving DecidableEq, Repr

/-- The per-instance widget state from slider.rs (struct State). -/
structure State where
  is_dragging : Bool
  keyboard_modifiers : Modifiers
deriving DecidableEq, Repr

/-- A 2D point with rational coordinates. -/
structure Point where
  x : ℚ
  y : ℚ
deriving DecidableEq, Repr

/-- An axis-aligned rectangle, as used for widget bounds. -/
structure Rectangle where
  x : ℚ
  y : ℚ
  width : ℚ
  height : ℚ
deriving DecidableEq, Repr

/-- Modelled from the spec: the pointer containment query consumed from the
host ("is position within these bounds"); half-open containment on the
right and bottom edges, as in the toolkit core. -/
def Rectangle.contains (b : Rectangle) (p : Point) : Bool :=
  decide (b.x ≤ p.x) && decide (p.x < b.x + b.width) &&
  decide (b.y ≤ p.y) && decide (p.y < b.y + b.height)

/-- The cursor: either an available pointer position or unavailable. -/
inductive Cursor where
  | available (p : Point)
  | unavailable
deriving DecidableEq, Repr

/-- Rust Cursor::position. -/
def Cursor.position : Cursor → Option Point
  | .available p => some p
  | .unavailable => none

/-- Modelled from the spec: the host query "position if within these
bounds" (Cursor::position_over). -/
def Cursor.position_over (c : Cursor) (b : Rectangle) : Option Point :=
  match c with
  | .available p => if b.contains p then some p else none
  | .unavailable => none

/-- Messages the slider publishes to the host shell: the on_change closure
output carrying the new value, or the configured on_release message. -/
inductive Msg where
  | onChange (v : ℚ)
  | onRelease
deriving DecidableEq, Repr

/-- The keys the slider distinguishes in its KeyPressed branch. -/
inductive Key where
  | arrowUp
  | arrowDown
  | otherKey
deriving DecidableEq, Repr

/-- The input event classes matched by Slider::on_event; every event not
matched by a branch of the Rust match is collapsed into otherEvent. -/
inductive Event where
  | mouseButtonPressedLeft
  | fingerPressed
  | mouseButtonReleasedLeft
  | fingerLifted
  | fingerLost
  | cursorMoved
  | fingerMoved
  | keyPressed (key : Key)
  | modifiersChanged (m : Modifiers)
  | otherEvent
deriving DecidableEq, Repr

/-- The event status returned to the dispatcher. -/
inductive Status where
  | captured
  | ignored
deriving DecidableEq, Repr

/-- The slider configuration (struct Slider): range, step, optional shift
step, current value, optional default, whether an on_release message is
configured, and the fallible back-conversion T::from_f64 into the generic
domain. The on_change closure is modelled by publishing Msg.onChange. -/
structure Slider where
  range_start : ℚ
  range_end : ℚ
  step : ℚ
  shift_step : Option ℚ
  value : ℚ
  default : Option ℚ
  on_release : Bool
  from_f64 : ℚ → Option ℚ

/-- Rust f64::EPSILON, the machine epsilon of the working domain. -/
def f64_epsilon : ℚ := 1 / 2 ^ 52

/-- The step selected inside locate, increment and decrement: the shift
step (falling back to step when unset) while shift is held, else step. -/
def Slider.active_step (s : Slider) (m : Modifiers) : ℚ :=
  if m.shift then s.shift_step.getD s.step else s.step

/-- The locate closure of on_event: pointer x at or before the left edge
yields start; at or after the right edge yields end; strictly inside, the
percent across the bounds is mapped to the span, rounded to a whole number
of active steps, rescaled and offset by start, and converted back. -/
def Slider.locate (s : Slider) (st : State) (bounds : Rectangle)
    (cursor_position : Point) : Option ℚ :=
  if cursor_position.x ≤ bounds.x then
    some s.range_start
  else if bounds.x + bounds.width ≤ cursor_position.x then
    some s.range_end
  else
    let step := s.active_step st.keyboard_modifiers
    let start := s.range_start
    let endv := s.range_end
    let percent := (cursor_position.x - bounds.x) / bounds.width
    let steps := ((rustRound (percent * (endv - start) / step) : ℤ) : ℚ)
    let value := steps * step + start
    s.from_f64 value

/-- The increment closure of on_event: round value to a whole number of
active steps, add one step; clamp to end when the result exceeds end,
otherwise convert back. -/
def Slider.increment (s : Slider) (st : State) (value : ℚ) : Option ℚ :=
  let step := s.active_step st.keyboard_modifiers
  let steps := ((rustRound (value / step) : ℤ) : ℚ)
  let new_value := step * (steps + 1)
  if s.range_end < new_value then
    some s.range_end
  else
    s.from_f64 new_value

/-- The decrement closure of on_event: round value to a whole number of
active steps, subtract one step; clamp to start when the result falls
below start, otherwise convert back. -/
def Slider.decrement (s : Slider) (st : State) (value : ℚ) : Option ℚ :=
  let step := s.active_step st.keyboard_modifiers
  let steps := ((rustRound (value / step) : ℤ) : ℚ)
  let new_value := step * (steps - 1)
  if new_value < s.range_start then
    some s.range_start
  else
    s.from_f64 new_value

/-- The change closure of on_event: when the new value differs from the
stored one by more than machine epsilon, publish on_change and store it;
otherwise do nothing. Returns the updated slider and the published
messages. -/
def Slider.change (s : Slider) (new_value : ℚ) : Slider × List Msg :=
  if f64_epsilon < |s.value - new_value| then
    ({ s with value := new_value }, [Msg.onChange new_value])
  else
    (s, [])

/-- Slider::new: clamp the initial value below by start, then above by
end; step defaults to 1, no shift step, no default, no on_release. -/
def Slider.new (range_start range_end value : ℚ)
    (from_f64 : ℚ → Option ℚ) : Slider :=
  let value1 := if range_start ≤ value then value else range_start
  let value2 := if value1 ≤ range_end then value1 else range_end
  { range_start := range_start
    range_end := range_end
    step := 1
    shift_step := none
    value := value2
    default := none
    on_release := false
    from_f64 := from_f64 }

/-- The outcome of one Slider::on_event call: the updated slider (the
mutation of self.value by change), the updated per-instance state, the
returned event status, and the messages published to the shell. -/
structure EventResult where
  slider : Slider
  state : State
  status : Status
  messages : List Msg

/-- Slider::on_event, the interaction state machine transition function. -/
def Slider.on_event (s : Slider) (st : State) (event : Event)
    (bounds : Rectangle) (cursor : Cursor) : EventResult :=
  let is_dragging := st.is_dragging
  let current_value := s.value
  match event with
  | .mouseButtonPressedLeft | .fingerPressed =>
    match cursor.position_over bounds with
    | some cursor_position =>
      if st.keyboard_modifiers.command then
        let r := match s.default with
          | some d => s.change d
          | none => (s, [])
        ⟨r.1, { st with is_dragging := false }, .captured, r.2⟩
      else
        let r := match s.locate st bounds cursor_position with
          | some v => s.change v
          | none => (s, [])
        ⟨r.1, { st with is_dragging := true }, .captured, r.2⟩
    | none => ⟨s, st, .ignored, []⟩
  | .mouseButtonReleasedLeft | .fingerLifted | .fingerLost =>
    if is_dragging then
      ⟨s, { st with is_dragging := false }, .captured,
        if s.on_release then [Msg.onRelease] else []⟩
    else
      ⟨s, st, .ignored, []⟩
  | .cursorMoved | .fingerMoved =>
    if is_dragging then
      let r := match cursor.position >>= fun p => s.locate st bounds p with
        | some v => s.change v
        | none => (s, [])
      ⟨r.1, st, .captured, r.2⟩
    else
      ⟨s, st, .ignored, []⟩
  | .keyPressed key =>
    if (cursor.position_over bounds).isSome then
      let r := match key with
        | .arrowUp =>
          match s.increment st current_value with
          | some v => s.change v
          | none => (s, [])
        | .arrowDown =>
          match s.decrement st current_value with
          | some v => s.change v
          | none => (s, [])
        | .otherKey => (s, [])
      ⟨r.1, st, .captured, r.2⟩
    else
      ⟨s, st, .ignored, []⟩
  | .modifiersChanged m =>
    ⟨s, { st with keyboard_modifiers := m }, .ignored, []⟩
  | .otherEvent => ⟨s, st, .ignored, []⟩

/-- The horizontal handle offset computed in draw: zero when the range is
degenerate (start at or above end), otherwise the fractional position of
the value scaled into the travel distance. -/
def Slider.offset (s : Slider) (bounds_width handle_width : ℚ) : ℚ :=
  if s.range_end ≤ s.range_start then
    0
  else
    (bounds_width - handle_width) * (s.value - s.range_start)
      / (s.range_end - s.range_start)

/-- An RGBA color with rational channels. -/
structure Color where
  r : ℚ
  g : ℚ
  b : ℚ
  a : ℚ
deriving DecidableEq, Repr

/-- Modelled from the spec: Color::scale_alpha is outside the excerpt; the
spec says scaling a solid color scales only that color's alpha channel. -/
def Color.scale_alpha (c : Color) (factor : ℚ) : Color :=
  { c with a := c.a * factor }

/-- A gradient color stop: a position along the gradient and a color. -/
structure ColorStop where
  offset : ℚ
  color : Color
deriving DecidableEq, Repr

/-- A linear gradient: an angle and its color stops. -/
structure Linear where
  angle : ℚ
  stops : List ColorStop
deriving DecidableEq, Repr

/-- Modelled from the spec: Gradient::scale_alpha is outside the excerpt;
the spec says it scales every stop's alpha, leaving positions and angles
unchanged. -/
def Linear.scale_alpha (g : Linear) (factor : ℚ) : Linear :=
  { g with stops :=
      g.stops.map fun stop => { stop with color := stop.color.scale_alpha factor } }

/-- The gradient union (only the linear variant exists). -/
inductive Gradient where
  | linear (l : Linear)
deriving DecidableEq, Repr

/-- Gradient::scale_alpha, dispatching to the linear variant. -/
def Gradient.scale_alpha : Gradient → ℚ → Gradient
  | .linear l, factor => .linear (l.scale_alpha factor)

/-- Background from src/core/src/background.rs: a solid color or a
gradient. -/
inductive Background where
  | color (c : Color)
  | gradient (g : Gradient)
deriving DecidableEq, Repr

/-- Background::scale_alpha: map the alpha scaling over the active
variant. -/
def Background.scale_alpha : Background → ℚ → Background
  | .color c, factor => .color (c.scale_alpha factor)
  | .gradient g, factor => .gradient (g.scale_alpha factor)

/-! Helper lemmas about the round-half-away-from-zero function. -/

theorem rustRound_le_add_half (q : ℚ) : (rustRound q : ℚ) ≤ q + 1/2 := by
  unfold rustRound
  split_ifs with h
  · exact_mod_cast Int.floor_le (q + 1/2)
  · have := Int.sub_one_lt_floor (-q + 1/2)
    push_cast
    push_cast at this
    linarith

theorem sub_half_le_rustRound (q : ℚ) : q - 1/2 ≤ (rustRound q : ℚ) := by
  unfold rustRound
  split_ifs with h
  · have := Int.sub_one_lt_floor (q + 1/2)
    linarith
  · have := Int.floor_le (-q + 1/2)
    push_cast
    push_cast at this
    linarith

theorem rustRound_nonneg (q : ℚ) (h : 0 ≤ q) : 0 ≤ rustRound q := by
  unfold rustRound
  rw [if_pos h]
  exact Int.floor_nonneg.mpr (by linarith)

theorem rustRound_eq_of (q : ℚ) (n : ℤ) (h0 : 0 ≤ q)
    (h1 : (n:ℚ) ≤ q + 1/2) (h2 : q + 1/2 < n + 1) : rustRound q = n := by
  unfold rustRound
  rw [if_pos h0]
  exact Int.floor_eq_iff.mpr ⟨h1, h2⟩

/-- C5: with start at most end, constructing a Slider with a value inside
the range stores it unchanged; a value below start stores start; a value
above end stores end. -/
theorem C5_new_clamps (a b v : ℚ) (F : ℚ → Option ℚ) (hab : a ≤ b) :
    (a ≤ v → v ≤ b → (Slider.new a b v F).value = v) ∧
    (v < a → (Slider.new a b v F).value = a) ∧
    (v > b → (Slider.new a b v F).value = b) := by
  simp only [Slider.new]
  refine ⟨fun h1 h2 => ?_, fun h1 => ?_, fun h1 => ?_⟩ <;>
    split_ifs <;> first | rfl | linarith

/-- C5 witness: construction at a concrete out-of-range value clamps to
the nearest bound. -/
theorem C5_new_clamps_witness :
    ((0:ℚ) ≤ 10 ∧ (-3:ℚ) < 0) ∧ (Slider.new 0 10 (-3) some).value = 0 :=
  ⟨⟨by norm_num, by norm_num⟩,
    (C5_new_clamps 0 10 (-3) some (by norm_num)).2.1 (by norm_num)⟩

/-- C8: with positive bounds width, locate at a pointer x at or before the
left edge returns start, and at or after the right edge returns end, in
both cases without invoking the fallible conversion. -/
theorem C8_locate_edges (s : Slider) (st : State) (b : Rectangle) (p : Point)
    (hw : 0 < b.width) :
    (p.x ≤ b.x → s.locate st b p = some s.range_start) ∧
    (b.x + b.width ≤ p.x → s.locate st b p = some s.range_end) := by
  constructor
  · intro h
    simp [Slider.locate, h]
  · intro h
    have h2 : ¬ p.x ≤ b.x := by linarith
    simp [Slider.locate, h2, h]

/-- C8 witness: concrete edge pointers on concrete bounds return the
range bounds, whatever the fallible conversion would do. -/
theorem C8_locate_edges_witness :
    (0:ℚ) < 20 ∧
    (Slider.new 3 7 5 (fun _ => none)).locate ⟨false, false, false⟩
      ⟨10, 0, 20, 16⟩ ⟨35, 4⟩ = some 7 :=
  ⟨by norm_num,
    (C8_locate_edges (Slider.new 3 7 5 (fun _ => none)) ⟨false, false, false⟩
      ⟨10, 0, 20, 16⟩ ⟨35, 4⟩ (by norm_num)).2 (by norm_num)⟩

/-- C3: change publishes an on-change message carrying the new value
exactly when the new value differs from the stored one by more than
machine epsilon; otherwise it publishes nothing and leaves the slider
unchanged; at most one message is published and the stored value is set
to the new value exactly when the message is emitted. -/
theorem C3_change_spec (s : Slider) (nv : ℚ) :
    ((s.change nv).2 = [Msg.onChange nv] ↔ f64_epsilon < |s.value - nv|) ∧
    ((s.change nv).2 = [] ↔ ¬ f64_epsilon < |s.value - nv|) ∧
    ((s.change nv).2 = [] → (s.change nv).1 = s) ∧
    ((s.change nv).2 ≠ [] → (s.change nv).1.value = nv) ∧
    (s.change nv).2.length ≤ 1 := by
  unfold Slider.change
  split_ifs with h <;> simp [h]

/-- C3 witness: a concrete change by more than epsilon emits the message
and stores the value; the emission count is at most one. -/
theorem C3_change_spec_witness :
    ((Slider.new 0 10 0 some).change 1).1.value = 1 ∧
    ((Slider.new 0 10 0 some).change 1).2.length ≤ 1 :=
  ⟨(C3_change_spec (Slider.new 0 10 0 some) 1).2.2.2.1 (by
      simp [Slider.change, Slider.new, f64_epsilon]
      norm_num),
    (C3_change_spec (Slider.new 0 10 0 some) 1).2.2.2.2⟩

/-- C10: when no shift step is configured, holding shift changes nothing:
the active step falls back to step, and locate, increment and decrement
coincide with their shift-free behavior. -/
theorem C10_shift_fallback (s : Slider) (hs : s.shift_step = none)
    (d : Bool) (m : Modifiers) (b : Rectangle) (p : Point) (v : ℚ) :
    s.active_step { m with shift := true } = s.step ∧
    s.locate ⟨d, { m with shift := true }⟩ b p
      = s.locate ⟨d, { m with shift := false }⟩ b p ∧
    s.increment ⟨d, { m with shift := true }⟩ v
      = s.increment ⟨d, { m with shift := false }⟩ v ∧
    s.decrement ⟨d, { m with shift := true }⟩ v
      = s.decrement ⟨d, { m with shift := false }⟩ v := by
  have ha : s.active_step { m with shift := true }
      = s.active_step { m with shift := false } := by
    simp [Slider.active_step, hs]
  have hb : s.active_step { m with shift := false } = s.step := by
    simp [Slider.active_step]
  refine ⟨ha.trans hb, ?_, ?_, ?_⟩ <;>
    simp only [Slider.locate, Slider.increment, Slider.decrement, ha]

/-- C10 witness: a concrete slider with no shift step behaves identically
with and without shift held. -/
theorem C10_shift_fallback_witness :
    (Slider.new 0 10 5 some).shift_step = none ∧
    (Slider.new 0 10 5 some).increment ⟨false, true, false⟩ 5
      = (Slider.new 0 10 5 some).increment ⟨false, false, false⟩ 5 :=
  ⟨rfl,
    (C10_shift_fallback (Slider.new 0 10 5 some) rfl false ⟨true, false⟩
      ⟨0, 0, 10, 16⟩ ⟨5, 5⟩ 5).2.2.1⟩

/-- C6: the draw offset is 0 for every degenerate range (start at or above
end) regardless of the stored value, the divisor is provably nonzero on
the branch that divides, and for a proper range the offset equals the
travel distance times the fractional position of the value. -/
theorem C6_offset_spec (s : Slider) (w hw : ℚ) :
    (s.range_end ≤ s.range_start →
      (∀ v : ℚ, ({ s with value := v } : Slider).offset w hw = 0) ∧
      s.offset w hw = 0) ∧
    (s.range_start < s.range_end →
      s.range_end - s.range_start ≠ 0 ∧
      s.offset w hw
        = (w - hw) * (s.value - s.range_start) / (s.range_end - s.range_start)) := by
  constructor
  · intro h
    constructor
    · intro v
      simp [Slider.offset, h]
    · simp [Slider.offset, h]
  · intro h
    have h2 : ¬ s.range_end ≤ s.range_start := not_le.mpr h
    exact ⟨sub_ne_zero.mpr (ne_of_gt h), by simp [Slider.offset, h2]⟩

/-- C6 witness: the degenerate range 5..=5 yields offset 0 even for a
stored value far outside it. -/
theorem C6_offset_spec_witness :
    (5:ℚ) ≤ 5 ∧
    ({ Slider.new 5 5 5 some with value := 99 } : Slider).offset 200 14 = 0 :=
  ⟨le_refl 5,
    ((C6_offset_spec (Slider.new 5 5 5 some) 200 14).1
      (by norm_num [Slider.new])).1 99⟩

/-- C9: scale_alpha preserves the Background variant and maps alpha
scaling over the active variant only: on a color it scales just that
color's alpha; on a gradient it scales every stop's alpha leaving angle
and stop positions unchanged; scaling by 1 is the identity and scaling by
0 zeroes every alpha. -/
theorem C9_scale_alpha_spec :
    (∀ (c : Color) (f : ℚ),
      (Background.color c).scale_alpha f
        = .color { r := c.r, g := c.g, b := c.b, a := c.a * f }) ∧
    (∀ (g : Linear) (f : ℚ),
      (Background.gradient (.linear g)).scale_alpha f
        = .gradient (.linear
            { angle := g.angle
              stops := g.stops.map (fun stop =>
                { offset := stop.offset
                  color := { r := stop.color.r, g := stop.color.g,
                             b := stop.color.b, a := stop.color.a * f } }) })) ∧
    (∀ bg : Background, bg.scale_alpha 1 = bg) ∧
    (∀ c : Color,
      (Background.color c).scale_alpha 0 = .color { c with a := 0 }) ∧
    (∀ g : Linear,
      (Background.gradient (.linear g)).scale_alpha 0
        = .gradient (.linear { g with stops := g.stops.map (fun stop =>
            { stop with color := { stop.color with a := 0 } }) })) := by
  refine ⟨fun c f => rfl, fun g f => rfl, fun bg => ?_, fun c => by
    simp [Background.scale_alpha, Color.scale_alpha], fun g => by
    simp [Background.scale_alpha, Gradient.scale_alpha, Linear.scale_alpha,
      Color.scale_alpha]⟩
  cases bg with
  | color c =>
    simp [Background.scale_alpha, Color.scale_alpha]
  | gradient g =>
    cases g with
    | linear l =>
      simp [Background.scale_alpha, Gradient.scale_alpha, Linear.scale_alpha,
        Color.scale_alpha]

/-- C4: with start at most end, a positive active step, a faithful
back-conversion and a value inside the range, every value returned by
increment or decrement lies in the range (the stepped result is clamped to
the bound it would cross), and increment applied at end returns end, so
stepping at the upper bound is idempotent. -/
theorem C4_step_bounds (s : Slider) (st : State) (value : ℚ)
    (hF : ∀ q v, s.from_f64 q = some v → v = q)
    (hr : s.range_start ≤ s.range_end)
    (hstep : 0 < s.active_step st.keyboard_modifiers)
    (hv1 : s.range_start ≤ value) (hv2 : value ≤ s.range_end) :
    (∀ v, s.increment st value = some v →
      s.range_start ≤ v ∧ v ≤ s.range_end) ∧
    (∀ v, s.decrement st value = some v →
      s.range_start ≤ v ∧ v ≤ s.range_end) ∧
    s.increment st s.range_end = some s.range_end := by
  have hk0 : s.active_step st.keyboard_modifiers ≠ 0 := ne_of_gt hstep
  have hcancel : ∀ x : ℚ,
      s.active_step st.keyboard_modifiers
        * (x / s.active_step st.keyboard_modifiers) = x := fun x =>
    mul_div_cancel₀ x hk0
  refine ⟨?_, ?_, ?_⟩
  · intro v hv
    simp only [Slider.increment] at hv
    split_ifs at hv with h
    · cases hv
      exact ⟨hr, le_refl _⟩
    · have hveq := hF _ _ hv
      subst hveq
      have h1 := sub_half_le_rustRound (value / s.active_step st.keyboard_modifiers)
      have h2 : s.active_step st.keyboard_modifiers
            * (value / s.active_step st.keyboard_modifiers + 1/2)
          ≤ s.active_step st.keyboard_modifiers
            * ((rustRound (value / s.active_step st.keyboard_modifiers) : ℚ) + 1) := by
        apply mul_le_mul_of_nonneg_left _ (le_of_lt hstep)
        linarith
      rw [mul_add, hcancel] at h2
      constructor
      · nlinarith
      · exact not_lt.mp h
  · intro v hv
    simp only [Slider.decrement] at hv
    split_ifs at hv with h
    · cases hv
      exact ⟨le_refl _, hr⟩
    · have hveq := hF _ _ hv
      subst hveq
      have h1 := rustRound_le_add_half (value / s.active_step st.keyboard_modifiers)
      have h2 : s.active_step st.keyboard_modifiers
            * ((rustRound (value / s.active_step st.keyboard_modifiers) : ℚ))
          ≤ s.active_step st.keyboard_modifiers
            * (value / s.active_step st.keyboard_modifiers + 1/2) :=
        mul_le_mul_of_nonneg_left h1 (le_of_lt hstep)
      rw [mul_add, hcancel] at h2
      constructor
      · exact not_lt.mp h
      · nlinarith
  · simp only [Slider.increment]
    rw [if_pos]
    have h1 := sub_half_le_rustRound
      (s.range_end / s.active_step st.keyboard_modifiers)
    have h2 : s.active_step st.keyboard_modifiers
          * (s.range_end / s.active_step st.keyboard_modifiers + 1/2)
        ≤ s.active_step st.keyboard_modifiers
          * ((rustRound (s.range_end / s.active_step st.keyboard_modifiers) : ℚ) + 1) := by
      apply mul_le_mul_of_nonneg_left _ (le_of_lt hstep)
      linarith
    rw [mul_add, hcancel] at h2
    nlinarith

/-- C4 witness: on the slider over 0..=10 with step 1, incrementing at the
upper bound returns the upper bound. -/
theorem C4_step_bounds_witness :
    (Slider.new 0 10 5 some).increment ⟨false, ⟨false, false⟩⟩ 10 = some 10 := by
  have h := (C4_step_bounds (Slider.new 0 10 5 some) ⟨false, ⟨false, false⟩⟩ 5
    (fun _ _ hqv => (Option.some.inj hqv).symm)
    (by norm_num [Slider.new])
    (by norm_num [Slider.active_step, Slider.new])
    (by norm_num [Slider.new])
    (by norm_num [Slider.new])).2.2
  simpa [Slider.new] using h

/-- A concrete slider configuration exhibiting the missing clamp in
locate: range 1/2..=55/2 with step 10. -/
def C2_slider : Slider :=
  { range_start := 1/2
    range_end := 55/2
    step := 10
    shift_step := none
    value := 0
    default := none
    on_release := false
    from_f64 := some }

/-- The idle state with no modifiers held. -/
def C2_state : State := ⟨false, ⟨false, false⟩⟩

/-- Bounds of width 27 at the origin. -/
def C2_bounds : Rectangle := ⟨0, 0, 27, 16⟩

/-- C2 counterexample: at pointer x = 26, strictly inside bounds of width
27, with start = 1/2, end = 55/2, step 10, locate rounds 2.6 steps up to 3
steps and returns 61/2 = 30.5, which exceeds end = 27.5 and is not a
multiple of the step: the interior branch never clamps to the range. -/
theorem C2_locate_cex :
    C2_slider.locate C2_state C2_bounds ⟨26, 5⟩ = some (61/2) ∧
    C2_bounds.x < 26 ∧ (26:ℚ) < C2_bounds.x + C2_bounds.width ∧
    C2_slider.range_start ≤ C2_slider.range_end ∧
    0 < C2_slider.active_step C2_state.keyboard_modifiers ∧
    ¬ (61:ℚ)/2 ≤ C2_slider.range_end ∧
    ¬ ∃ k : ℤ, (61:ℚ)/2 = k * C2_slider.active_step C2_state.keyboard_modifiers := by
  have hround : rustRound ((13:ℚ)/5) = 3 :=
    rustRound_eq_of _ 3 (by norm_num) (by norm_num) (by norm_num)
  have hstep : C2_slider.active_step C2_state.keyboard_modifiers = 10 := by
    norm_num [C2_slider, C2_state, Slider.active_step]
  refine ⟨?_, by norm_num [C2_bounds], by norm_num [C2_bounds],
    by norm_num [C2_slider], by rw [hstep]; norm_num,
    by norm_num [C2_slider], ?_⟩
  · norm_num [Slider.locate, Slider.active_step, C2_slider, C2_state,
      C2_bounds, hround]
  · rintro ⟨k, hk⟩
    rw [hstep] at hk
    have h2 : (61:ℚ) = ((20 * k : ℤ) : ℚ) := by push_cast; linarith
    have h3 : (61:ℤ) = 20 * k := by exact_mod_cast h2
    omega

/-- C2 amended: for a pointer strictly inside the bounds, with start at
most end, a positive active step and a faithful back-conversion, every
value returned by locate is start plus a nonnegative whole number of
active steps (hence a multiple of the step only relative to start), is at
least start, and is below end plus half a step; it is not clamped to end
and can overshoot it by up to half a step. -/
theorem C2_locate_amended (s : Slider) (st : State) (b : Rectangle) (p : Point)
    (hF : ∀ q v, s.from_f64 q = some v → v = q)
    (hr : s.range_start ≤ s.range_end)
    (hstep : 0 < s.active_step st.keyboard_modifiers)
    (hx1 : b.x < p.x) (hx2 : p.x < b.x + b.width) :
    ∀ v, s.locate st b p = some v →
      (∃ k : ℤ, 0 ≤ k ∧
        v = (k : ℚ) * s.active_step st.keyboard_modifiers + s.range_start) ∧
      s.range_start ≤ v ∧
      v < s.range_end + s.active_step st.keyboard_modifiers / 2 := by
  intro v hv
  have hnot1 : ¬ p.x ≤ b.x := not_le.mpr hx1
  have hnot2 : ¬ b.x + b.width ≤ p.x := not_le.mpr hx2
  simp only [Slider.locate, hnot1, hnot2, if_false] at hv
  have hveq := hF _ _ hv
  subst hveq
  have hw : 0 < b.width := by linarith
  have hk0 : s.active_step st.keyboard_modifiers ≠ 0 := ne_of_gt hstep
  have hperc_pos : 0 < (p.x - b.x) / b.width := div_pos (by linarith) hw
  have hperc_lt : (p.x - b.x) / b.width < 1 := by
    rw [div_lt_one hw]; linarith
  have hE : 0 ≤ s.range_end - s.range_start := by linarith
  have hrq : 0 ≤ (p.x - b.x) / b.width * (s.range_end - s.range_start)
      / s.active_step st.keyboard_modifiers :=
    div_nonneg (mul_nonneg (le_of_lt hperc_pos) hE) (le_of_lt hstep)
  have hsteps0 : 0 ≤ rustRound ((p.x - b.x) / b.width * (s.range_end - s.range_start)
      / s.active_step st.keyboard_modifiers) := rustRound_nonneg _ hrq
  have hsteps0q : (0:ℚ) ≤ (rustRound ((p.x - b.x) / b.width * (s.range_end - s.range_start)
      / s.active_step st.keyboard_modifiers) : ℚ) := by exact_mod_cast hsteps0
  refine ⟨⟨rustRound ((p.x - b.x) / b.width * (s.range_end - s.range_start)
      / s.active_step st.keyboard_modifiers), hsteps0, rfl⟩, ?_, ?_⟩
  · have := mul_nonneg hsteps0q (le_of_lt hstep)
    linarith
  · have hle := rustRound_le_add_half ((p.x - b.x) / b.width
      * (s.range_end - s.range_start) / s.active_step st.keyboard_modifiers)
    have hmul : (rustRound ((p.x - b.x) / b.width * (s.range_end - s.range_start)
          / s.active_step st.keyboard_modifiers) : ℚ)
          * s.active_step st.keyboard_modifiers
        ≤ ((p.x - b.x) / b.width * (s.range_end - s.range_start)
            / s.active_step st.keyboard_modifiers + 1/2)
          * s.active_step st.keyboard_modifiers :=
      mul_le_mul_of_nonneg_right hle (le_of_lt hstep)
    have hcancel : (p.x - b.x) / b.width * (s.range_end - s.range_start)
          / s.active_step st.keyboard_modifiers
          * s.active_step st.keyboard_modifiers
        = (p.x - b.x) / b.width * (s.range_end - s.range_start) :=
      div_mul_cancel₀ _ hk0
    rw [add_mul, hcancel] at hmul
    rcases eq_or_lt_of_le hE with hE0 | hEpos
    · have hz : (p.x - b.x) / b.width * (s.range_end - s.range_start)
          / s.active_step st.keyboard_modifiers = 0 := by
        rw [← hE0]
        ring
      rw [hz] at hmul ⊢
      have hr0 : rustRound 0 = 0 :=
        rustRound_eq_of 0 0 (le_refl 0) (by norm_num) (by norm_num)
      rw [hr0]
      push_cast
      linarith
    · have hfrac : (p.x - b.x) / b.width * (s.range_end - s.range_start)
          < s.range_end - s.range_start := by
        have := mul_lt_mul_of_pos_right hperc_lt hEpos
        linarith
      linarith

/-- C2 amended witness: on the slider over 0..=10 with step 1 and bounds
of width 10, the pointer at x = 17/5 locates the value 3, which is of the
stated form and within the stated bounds. -/
theorem C2_locate_amended_witness :
    (∃ k : ℤ, 0 ≤ k ∧ (3:ℚ) = (k : ℚ) * (Slider.new 0 10 5 some).active_step
        (⟨false, ⟨false, false⟩⟩ : State).keyboard_modifiers
        + (Slider.new 0 10 5 some).range_start) ∧
    (Slider.new 0 10 5 some).range_start ≤ 3 ∧
    (3:ℚ) < (Slider.new 0 10 5 some).range_end
      + (Slider.new 0 10 5 some).active_step
          (⟨false, ⟨false, false⟩⟩ : State).keyboard_modifiers / 2 :=
  C2_locate_amended (Slider.new 0 10 5 some) ⟨false, ⟨false, false⟩⟩
    ⟨0, 0, 10, 16⟩ ⟨17/5, 3⟩
    (fun _ _ h => (Option.some.inj h).symm)
    (by norm_num [Slider.new])
    (by norm_num [Slider.active_step, Slider.new])
    (by norm_num) (by norm_num)
    3 (by
      have hround : rustRound ((17:ℚ)/5) = 3 :=
        rustRound_eq_of _ 3 (by norm_num) (by norm_num) (by norm_num)
      norm_num [Slider.locate, Slider.new, Slider.active_step, hround])

/-- A concrete slider over 0..=10 used on concrete events. -/
def C1_slider : Slider := Slider.new 0 10 5 some

/-- The idle state with no modifiers held, for the event counterexample. -/
def C1_state : State := ⟨false, ⟨false, false⟩⟩

/-- Bounds of width 10 at the origin, for the event counterexample. -/
def C1_bounds : Rectangle := ⟨0, 0, 10, 16⟩

/-- C1 counterexample: a modifiers-changed event is processed (the stored
modifier set is updated) yet on_event returns Ignored, not Captured; and a
key press that is not an arrow key, with the pointer over the bounds,
returns Captured though the claim lists only arrow keys among the captured
transitions. -/
theorem C1_on_event_cex :
    (C1_slider.on_event C1_state (.modifiersChanged ⟨true, false⟩) C1_bounds
      .unavailable).status = .ignored ∧
    (C1_slider.on_event C1_state (.modifiersChanged ⟨true, false⟩) C1_bounds
      .unavailable).state.keyboard_modifiers = ⟨true, false⟩ ∧
    (C1_slider.on_event C1_state (.keyPressed .otherKey) C1_bounds
      (.available ⟨5, 5⟩)).status = .captured := by
  refine ⟨rfl, rfl, ?_⟩
  have hcont : C1_bounds.contains ⟨5, 5⟩ = true := by
    simp only [Rectangle.contains, C1_bounds]
    norm_num
  simp [Slider.on_event, Cursor.position_over, hcont]

/-- C1 amended: on_event returns Captured exactly when the event is a
left-button or finger press with the cursor over the bounds, a left-button
release or finger lift or finger loss while dragging, a cursor or finger
move while dragging, or any key press (arrow or not) with the cursor over
the bounds; modifier-state-changed events update the stored modifier set
but are Ignored, as is every other event. -/
theorem C1_on_event_status (s : Slider) (st : State) (ev : Event)
    (b : Rectangle) (c : Cursor) :
    (s.on_event st ev b c).status = .captured ↔
      (((ev = .mouseButtonPressedLeft ∨ ev = .fingerPressed) ∧
          (c.position_over b).isSome = true) ∨
       ((ev = .mouseButtonReleasedLeft ∨ ev = .fingerLifted ∨
          ev = .fingerLost) ∧ st.is_dragging = true) ∨
       ((ev = .cursorMoved ∨ ev = .fingerMoved) ∧ st.is_dragging = true) ∨
       ((∃ k, ev = .keyPressed k) ∧ (c.position_over b).isSome = true)) := by
  cases ev with
  | mouseButtonPressedLeft =>
    cases h : c.position_over b with
    | none => simp [Slider.on_event, h]
    | some p =>
      simp only [Slider.on_event, h]
      split_ifs <;> simp [h]
  | fingerPressed =>
    cases h : c.position_over b with
    | none => simp [Slider.on_event, h]
    | some p =>
      simp only [Slider.on_event, h]
      split_ifs <;> simp [h]
  | mouseButtonReleasedLeft =>
    cases hd : st.is_dragging <;> simp [Slider.on_event, hd]
  | fingerLifted =>
    cases hd : st.is_dragging <;> simp [Slider.on_event, hd]
  | fingerLost =>
    cases hd : st.is_dragging <;> simp [Slider.on_event, hd]
  | cursorMoved =>
    cases hd : st.is_dragging <;> simp [Slider.on_event, hd]
  | fingerMoved =>
    cases hd : st.is_dragging <;> simp [Slider.on_event, hd]
  | keyPressed k =>
    cases h : c.position_over b with
    | none => simp [Slider.on_event, h]
    | some p => simp [Slider.on_event, h]
  | modifiersChanged m => simp [Slider.on_event]
  | otherEvent => simp [Slider.on_event]

/-- C1 amended witness: a concrete press with the cursor over concrete
bounds is Captured, by the right-to-left direction of the
characterization. -/
theorem C1_on_event_status_witness :
    (C1_slider.on_event C1_state .mouseButtonPressedLeft C1_bounds
      (.available ⟨5, 5⟩)).status = .captured :=
  (C1_on_event_status C1_slider C1_state .mouseButtonPressedLeft C1_bounds
    (.available ⟨5, 5⟩)).mpr
    (Or.inl ⟨Or.inl rfl, by
      have hcont : C1_bounds.contains ⟨5, 5⟩ = true := by
        simp only [Rectangle.contains, C1_bounds]
        norm_num
      simp [Cursor.position_over, hcont]⟩)

/-- C7: while is_dragging holds, every cursor-moved or finger-moved event
is Captured, leaves is_dragging set, and applies locate followed by change
to the pointer position whenever one is available, with no containment
test; and from a dragging state, is_dragging is cleared only by a release,
lift or loss event, or by a press over the bounds with the command
modifier held. -/
theorem C7_drag_persistence (s : Slider) (st : State) (b : Rectangle)
    (c : Cursor) (ev : Event) (hd : st.is_dragging = true) :
    ((ev = .cursorMoved ∨ ev = .fingerMoved) →
      (s.on_event st ev b c).status = .captured ∧
      (s.on_event st ev b c).state.is_dragging = true ∧
      (∀ p, c.position = some p →
        ((s.on_event st ev b c).slider, (s.on_event st ev b c).messages)
          = match s.locate st b p with
            | some v => s.change v
            | none => (s, []))) ∧
    ((s.on_event st ev b c).state.is_dragging = false →
      (ev = .mouseButtonReleasedLeft ∨ ev = .fingerLifted ∨
        ev = .fingerLost) ∨
      ((ev = .mouseButtonPressedLeft ∨ ev = .fingerPressed) ∧
        st.keyboard_modifiers.command = true ∧
        (c.position_over b).isSome = true)) := by
  constructor
  · rintro (rfl | rfl) <;>
      refine ⟨by simp [Slider.on_event, hd], by simp [Slider.on_event, hd], ?_⟩ <;>
      intro p hp <;>
      simp only [Slider.on_event, hd, hp, if_true, Option.some_bind] <;>
      cases hl : s.locate st b p <;> simp [hl]
  · intro hcleared
    cases ev with
    | mouseButtonPressedLeft =>
      cases h : c.position_over b with
      | none =>
        simp [Slider.on_event, h, hd] at hcleared
      | some p =>
        simp only [Slider.on_event, h] at hcleared
        split_ifs at hcleared with hc
        exact Or.inr ⟨Or.inl rfl, hc, by simp [h]⟩
    | fingerPressed =>
      cases h : c.position_over b with
      | none =>
        simp [Slider.on_event, h, hd] at hcleared
      | some p =>
        simp only [Slider.on_event, h] at hcleared
        split_ifs at hcleared with hc
        exact Or.inr ⟨Or.inr rfl, hc, by simp [h]⟩
    | mouseButtonReleasedLeft => exact Or.inl (Or.inl rfl)
    | fingerLifted => exact Or.inl (Or.inr (Or.inl rfl))
    | fingerLost => exact Or.inl (Or.inr (Or.inr rfl))
    | cursorMoved => simp [Slider.on_event, hd] at hcleared
    | fingerMoved => simp [Slider.on_event, hd] at hcleared
    | keyPressed k =>
      cases h : c.position_over b with
      | none => simp [Slider.on_event, h, hd] at hcleared
      | some p => simp [Slider.on_event, h, hd] at hcleared
    | modifiersChanged m => simp [Slider.on_event, hd] at hcleared
    | otherEvent => simp [Slider.on_event, hd] at hcleared

/-- C7 witness: a cursor move far outside the bounds, while dragging, is
still Captured and leaves the drag state set. -/
theorem C7_drag_persistence_witness :
    ((Slider.new 0 10 5 some).on_event ⟨true, ⟨false, false⟩⟩ .cursorMoved
      ⟨0, 0, 10, 16⟩ (.available ⟨100, 100⟩)).status = .captured ∧
    ((Slider.new 0 10 5 some).on_event ⟨true, ⟨false, false⟩⟩ .cursorMoved
      ⟨0, 0, 10, 16⟩ (.available ⟨100, 100⟩)).state.is_dragging = true :=
  ⟨((C7_drag_persistence (Slider.new 0 10 5 some) ⟨true, ⟨false, false⟩⟩
      ⟨0, 0, 10, 16⟩ (.available ⟨100, 100⟩) .cursorMoved rfl).1
      (Or.inl rfl)).1,
   ((C7_drag_persistence (Slider.new 0 10 5 some) ⟨true, ⟨false, false⟩⟩
      ⟨0, 0, 10, 16⟩ (.available ⟨100, 100⟩) .cursorMoved rfl).1
      (Or.inl rfl)).2.1⟩

end IcedGui
